import Mathlib

/-!
Verification of the OHCI IT DMA program builder and fault diagnoser
(`tools/it_dma_program.py`, decoder from `tools/verify_control_word.py`).

The Python source is shallowly embedded: machine integers become `Nat`
with explicit masking / `% 2^w` where the source masks, byte strings
become `List Nat`, the mutable `ITProgramBuilder` object becomes an
explicit state record threaded through the operations, and the
exceptions raised by the source become `Except` results.
-/

namespace ITDMA

/-- Little-endian bytes of one `H` field of Python `struct.pack "<HHIIHH"`
(the callers always mask the value to 16 bits first). -/
def le16 (n : Nat) : List Nat := [n % 256, n / 256 % 256]

/-- Little-endian bytes of one `I` field of Python `struct.pack`. -/
def le32 (n : Nat) : List Nat := [n % 256, n / 256 % 256, n / 65536 % 256, n / 16777216 % 256]

/-- Big-endian bytes of one `I` field of Python `struct.pack ">II"`. -/
def be32 (n : Nat) : List Nat := [n / 16777216 % 256, n / 65536 % 256, n / 256 % 256, n % 256]

/-- `ITCmd.OUTPUT_MORE` from the source. -/
def OUTPUT_MORE : Nat := 0x0

/-- `ITCmd.OUTPUT_LAST` from the source. -/
def OUTPUT_LAST : Nat := 0x1

/-- `ITCmd.STORE_VALUE` from the source. -/
def STORE_VALUE_CMD : Nat := 0x8

/-- `ITKey.STANDARD` from the source. -/
def KEY_STANDARD : Nat := 0x0

/-- `ITKey.IMMEDIATE` from the source. -/
def KEY_IMMEDIATE : Nat := 0x2

/-- `ITKey.STORE` from the source. -/
def KEY_STORE : Nat := 0x6

/-- `ITIrq.NONE` from the source. -/
def IRQ_NONE : Nat := 0x0

/-- `ITIrq.ALWAYS` from the source. -/
def IRQ_ALWAYS : Nat := 0x3

/-- `ITBranch.NEVER` from the source. -/
def BRANCH_NEVER : Nat := 0x0

/-- `ITBranch.ALWAYS` from the source. -/
def BRANCH_ALWAYS : Nat := 0x3

/-- `ITWait.NEVER` from the source. -/
def WAIT_NEVER : Nat := 0x0

/-- `BLOCK_SIZE` from the source: 16 bytes per descriptor block. -/
def BLOCK_SIZE : Nat := 16

/-- `make_control` from `it_dma_program.py`: build the 16-bit control field.
Layout `[15:12]=cmd, [11]=s, [10:8]=key, [7:6]=unused, [5:4]=i, [3:2]=b, [1:0]=w`. -/
def make_control (cmd : Nat) (status_write : Bool) (key irq branch waitc : Nat) : Nat :=
  let s : Nat := if status_write then 1 else 0
  let control := ((cmd &&& 0xF) <<< 12) ||| ((s &&& 0x1) <<< 11) ||| ((key &&& 0x7) <<< 8)
  let control := control ||| ((irq &&& 0x3) <<< 4) ||| ((branch &&& 0x3) <<< 2) ||| (waitc &&& 0x3)
  control &&& 0xFFFF

/-- `pack_desc16` from the source: 16-byte descriptor,
`struct.pack "<HHIIHH"` of the masked fields. -/
def pack_desc16 (req_count control data_address branch_address_with_z res_count transfer_status : Nat) : List Nat :=
  le16 (req_count &&& 0xFFFF) ++ le16 (control &&& 0xFFFF) ++
  le32 (data_address &&& 0xFFFFFFFF) ++ le32 (branch_address_with_z &&& 0xFFFFFFFF) ++
  le16 (res_count &&& 0xFFFF) ++ le16 (transfer_status &&& 0xFFFF)

/-- `pack_ptr_with_z` from the source: address with Z value in the low 4 bits. -/
def pack_ptr_with_z (addr z : Nat) : Nat :=
  (addr &&& 0xFFFFFFF0) ||| (z &&& 0xF)

/-- `build_it_header_q0` from the source. -/
def build_it_header_q0 (speed tag channel : Nat) (sy : Nat := 0) (tcode : Nat := 0xA) : Nat :=
  (((speed &&& 0x7) <<< 16) ||| ((tag &&& 0x3) <<< 14) ||| ((channel &&& 0x3F) <<< 8) |||
    ((tcode &&& 0xF) <<< 4) ||| (sy &&& 0xF)) &&& 0xFFFFFFFF

/-- `build_it_header_q1` from the source. -/
def build_it_header_q1 (data_length_bytes : Nat) : Nat :=
  ((data_length_bytes &&& 0xFFFF) <<< 16) &&& 0xFFFFFFFF

/-- `build_cip_q0` from the source (IEC 61883-1 CIP quadlet 0). -/
def build_cip_q0 (sid dbs dbc fn qpc sph : Nat) : Nat :=
  (((0 &&& 0x3) <<< 30) ||| ((sid &&& 0x3F) <<< 24) ||| ((dbs &&& 0xFF) <<< 16) |||
    ((fn &&& 0x3) <<< 14) ||| ((qpc &&& 0x7) <<< 11) ||| ((sph &&& 0x1) <<< 10) |||
    ((0 &&& 0x3) <<< 8) ||| (dbc &&& 0xFF)) &&& 0xFFFFFFFF

/-- `build_cip_q1` from the source (IEC 61883-1 CIP quadlet 1). -/
def build_cip_q1 (fmt fdf syt : Nat) : Nat :=
  (((2 &&& 0x3) <<< 30) ||| ((fmt &&& 0x3F) <<< 24) ||| ((fdf &&& 0xFF) <<< 16) |||
    (syt &&& 0xFFFF)) &&& 0xFFFFFFFF

/-- `fdf_for_rate` from the source: FDF for a sample rate, `none` models the
`ValueError` raised for an unsupported rate. -/
def fdf_for_rate (sample_rate : Nat) : Option Nat :=
  if sample_rate = 32000 then some 0x03
  else if sample_rate = 44100 then some 0x00
  else if sample_rate = 48000 then some 0x02
  else if sample_rate = 88200 then some 0x01
  else if sample_rate = 96000 then some 0x04
  else if sample_rate = 176400 then some 0x05
  else if sample_rate = 192000 then some 0x06
  else none

/-- Result of `decode_control_word` in `verify_control_word.py`:
the dict of extracted fields. -/
structure DecodedControl where
  reqCount : Nat
  cmd : Nat
  key : Nat
  ping : Nat
  i : Nat
  b : Nat
  waitc : Nat
  high : Nat
deriving Repr, DecidableEq

/-- `decode_control_word` from `verify_control_word.py`. -/
def decode_control_word (control : Nat) : DecodedControl :=
  let reqCount := control &&& 0xFFFF
  let high := (control >>> 16) &&& 0xFFFF
  { reqCount := reqCount
    cmd := (high >>> 12) &&& 0xF
    key := (high >>> 8) &&& 0x7
    ping := (high >>> 7) &&& 0x1
    i := (high >>> 4) &&& 0x3
    b := (high >>> 2) &&& 0x3
    waitc := high &&& 0x3
    high := high }

/-- First 32-bit word of a descriptor as the hardware sees it: `reqCount` in
the low 16 bits and the 16-bit control field in the high 16 bits.  This is
the `(req & 0xFFFF) | ((control & 0xFFFF) << 16)` packing used by
`OutputMoreImmediate.to_bytes` / `OutputLastImmediate.to_bytes` and the
little-endian layout of `pack_desc16`; `analyze_it_log` reads it back the
same way. -/
def control_word32 (req_count control : Nat) : Nat :=
  (req_count &&& 0xFFFF) ||| ((control &&& 0xFFFF) <<< 16)

/-! ### Arithmetic normal forms for the bit operations -/

theorem and_one (x : Nat) : x &&& 1 = x % 2 :=
  Nat.and_one_is_mod x

theorem and_three (x : Nat) : x &&& 3 = x % 4 := by
  have h := Nat.and_pow_two_sub_one_eq_mod x 2
  norm_num at h
  exact h

theorem and_seven (x : Nat) : x &&& 7 = x % 8 := by
  have h := Nat.and_pow_two_sub_one_eq_mod x 3
  norm_num at h
  exact h

theorem and_fifteen (x : Nat) : x &&& 15 = x % 16 := by
  have h := Nat.and_pow_two_sub_one_eq_mod x 4
  norm_num at h
  exact h

theorem and_255 (x : Nat) : x &&& 255 = x % 256 := by
  have h := Nat.and_pow_two_sub_one_eq_mod x 8
  norm_num at h
  exact h

theorem and_65535 (x : Nat) : x &&& 65535 = x % 65536 := by
  have h := Nat.and_pow_two_sub_one_eq_mod x 16
  norm_num at h
  exact h

theorem and_u32 (x : Nat) : x &&& 4294967295 = x % 4294967296 := by
  have h := Nat.and_pow_two_sub_one_eq_mod x 32
  norm_num at h
  exact h

theorem lor_eq_add_pow (i a b : Nat) (hb : b < 2 ^ i) : a * 2 ^ i ||| b = a * 2 ^ i + b := by
  rw [Nat.mul_comm a (2 ^ i)]
  exact (Nat.mul_add_lt_is_or hb a).symm

theorem lor_add4 (a b : Nat) (hb : b < 4) : a * 4 ||| b = a * 4 + b := by
  have h := lor_eq_add_pow 2 a b (by norm_num; omega)
  norm_num at h
  exact h

theorem lor_add16 (a b : Nat) (hb : b < 16) : a * 16 ||| b = a * 16 + b := by
  have h := lor_eq_add_pow 4 a b (by norm_num; omega)
  norm_num at h
  exact h

theorem lor_add256 (a b : Nat) (hb : b < 256) : a * 256 ||| b = a * 256 + b := by
  have h := lor_eq_add_pow 8 a b (by norm_num; omega)
  norm_num at h
  exact h

theorem lor_add2048 (a b : Nat) (hb : b < 2048) : a * 2048 ||| b = a * 2048 + b := by
  have h := lor_eq_add_pow 11 a b (by norm_num; omega)
  norm_num at h
  exact h

theorem lor_add4096 (a b : Nat) (hb : b < 4096) : a * 4096 ||| b = a * 4096 + b := by
  have h := lor_eq_add_pow 12 a b (by norm_num; omega)
  norm_num at h
  exact h

theorem lor_add65536 (a b : Nat) (hb : b < 65536) : a * 65536 ||| b = a * 65536 + b := by
  have h := lor_eq_add_pow 16 a b (by norm_num; omega)
  norm_num at h
  exact h

/-- The 16-bit control field built by `make_control` as a plain sum,
valid for in-range fields. -/
theorem make_control_eq (cmd : Nat) (s : Bool) (key irq branch waitc : Nat)
    (hc : cmd < 16) (hk : key < 8) (hi : irq < 4) (hb : branch < 4) (hw : waitc < 4) :
    make_control cmd s key irq branch waitc =
      cmd * 4096 + (if s then 1 else 0) * 2048 + key * 256 + irq * 16 + branch * 4 + waitc := by
  unfold make_control
  set sv : Nat := (if s then 1 else 0) with hsdef
  have hs : sv < 2 := by rw [hsdef]; cases s <;> simp
  simp only [Nat.shiftLeft_eq, and_one, and_three, and_seven, and_fifteen, and_65535]
  rw [Nat.mod_eq_of_lt hc, Nat.mod_eq_of_lt hk, Nat.mod_eq_of_lt hi, Nat.mod_eq_of_lt hb,
    Nat.mod_eq_of_lt hw, Nat.mod_eq_of_lt hs]
  norm_num
  rw [Nat.or_assoc, Nat.or_assoc, Nat.or_assoc, Nat.or_assoc]
  rw [lor_add4 branch waitc hw]
  rw [lor_add16 irq _ (by omega)]
  rw [lor_add256 key _ (by omega)]
  rw [lor_add2048 _ _ (by omega)]
  rw [lor_add4096 cmd _ (by omega)]
  omega

/-- The first 32-bit word packs the control field above `reqCount`. -/
theorem control_word32_eq (req control : Nat) (hr : req < 65536) (hc : control < 65536) :
    control_word32 req control = control * 65536 + req := by
  unfold control_word32
  simp only [Nat.shiftLeft_eq, and_65535]
  rw [Nat.mod_eq_of_lt hr, Nat.mod_eq_of_lt hc]
  norm_num
  rw [Nat.lor_comm, lor_add65536 control req hr]

/-- Claim C1: control-word round-trip.  For every valid field combination
(4-bit cmd, 1-bit statusWrite, 3-bit key, 2-bit interrupt, 2-bit branch,
2-bit wait, 16-bit reqCount), decoding the 32-bit control word produced by
encoding those fields returns exactly the original fields: `cmd`, `key`,
`i` (interrupt), `b` (branch), `wait` and `reqCount` come straight back as
the decoder's like-named outputs, the statusWrite flag is bit 11 of the
decoder's returned `high` half-word, and the reserved bits 7:6 of the
encoded word are zero (bit 7 is the decoder's `ping` output). -/
theorem c1_control_word_roundtrip (cmd key irq branch waitc req : Nat) (s : Bool)
    (hc : cmd < 16) (hk : key < 8) (hi : irq < 4) (hb : branch < 4) (hw : waitc < 4)
    (hr : req < 65536) :
    (decode_control_word (control_word32 req (make_control cmd s key irq branch waitc))).cmd = cmd ∧
    (decode_control_word (control_word32 req (make_control cmd s key irq branch waitc))).key = key ∧
    (decode_control_word (control_word32 req (make_control cmd s key irq branch waitc))).i = irq ∧
    (decode_control_word (control_word32 req (make_control cmd s key irq branch waitc))).b = branch ∧
    (decode_control_word (control_word32 req (make_control cmd s key irq branch waitc))).waitc = waitc ∧
    (decode_control_word (control_word32 req (make_control cmd s key irq branch waitc))).reqCount = req ∧
    ((decode_control_word (control_word32 req (make_control cmd s key irq branch waitc))).high >>> 11) &&& 1
      = (if s then 1 else 0) ∧
    (decode_control_word (control_word32 req (make_control cmd s key irq branch waitc))).ping = 0 ∧
    ((decode_control_word (control_word32 req (make_control cmd s key irq branch waitc))).high >>> 6) &&& 1
      = 0 := by
  have hmc := make_control_eq cmd s key irq branch waitc hc hk hi hb hw
  set sv : Nat := (if s then 1 else 0) with hsdef
  have hs : sv < 2 := by rw [hsdef]; cases s <;> simp
  have hlt : make_control cmd s key irq branch waitc < 65536 := by omega
  have hw32 := control_word32_eq req (make_control cmd s key irq branch waitc) hr hlt
  rw [hw32, hmc]
  unfold decode_control_word
  simp only [Nat.shiftRight_eq_div_pow, and_one, and_three, and_seven, and_fifteen, and_65535]
  norm_num
  omega

/-- Witness for C1 at the concrete fields of the spec's scenario 2
(cmd = OUTPUT_LAST, key = IMMEDIATE, interrupt = 3, branch = 3,
reqCount = 12), with statusWrite set. -/
theorem c1_control_word_roundtrip_witness :
    (1 : Nat) < 16 ∧ (2 : Nat) < 8 ∧ (3 : Nat) < 4 ∧ (3 : Nat) < 4 ∧ (0 : Nat) < 4 ∧
    (12 : Nat) < 65536 ∧
    ((decode_control_word (control_word32 12 (make_control 1 true 2 3 3 0))).cmd = 1 ∧
     (decode_control_word (control_word32 12 (make_control 1 true 2 3 3 0))).key = 2 ∧
     (decode_control_word (control_word32 12 (make_control 1 true 2 3 3 0))).i = 3 ∧
     (decode_control_word (control_word32 12 (make_control 1 true 2 3 3 0))).b = 3 ∧
     (decode_control_word (control_word32 12 (make_control 1 true 2 3 3 0))).waitc = 0 ∧
     (decode_control_word (control_word32 12 (make_control 1 true 2 3 3 0))).reqCount = 12 ∧
     ((decode_control_word (control_word32 12 (make_control 1 true 2 3 3 0))).high >>> 11) &&& 1
       = (if true then 1 else 0) ∧
     (decode_control_word (control_word32 12 (make_control 1 true 2 3 3 0))).ping = 0 ∧
     ((decode_control_word (control_word32 12 (make_control 1 true 2 3 3 0))).high >>> 6) &&& 1
       = 0) :=
  ⟨by decide, by decide, by decide, by decide, by decide, by decide,
   c1_control_word_roundtrip 1 2 3 3 0 12 true (by decide) (by decide) (by decide) (by decide)
     (by decide) (by decide)⟩

/-! ### Descriptor data model -/

/-- The descriptor variants of the source as a closed sum.  Every Python
dataclass field is kept, including the `size` attribute (whose dataclass
default is 16 for single-unit and 32 for immediate descriptors, supplied
explicitly at each construction site below). -/
inductive ITDescriptor where
  | storeValue (size store_value store_address skip_address skip_z : Nat) (irq : Bool)
  | outputMoreImmediate (size it_q0 it_q1 skip_address skip_z : Nat) (irq_on_skip : Bool)
  | outputLastImmediate (size it_q0 it_q1 branch_address branch_z : Nat)
      (write_status irq_on_complete : Bool)
  | outputMore (size req_count data_address : Nat)
  | outputLast (size req_count data_address branch_address branch_z : Nat)
      (write_status irq_on_complete : Bool)
  | outputLastSkip (size branch_address branch_z : Nat) (irq_on_complete : Bool)
deriving Repr, DecidableEq, Inhabited

/-- The `size` attribute of a descriptor. -/
def ITDescriptor.size : ITDescriptor → Nat
  | .storeValue sz _ _ _ _ _ => sz
  | .outputMoreImmediate sz _ _ _ _ _ => sz
  | .outputLastImmediate sz _ _ _ _ _ _ => sz
  | .outputMore sz _ _ => sz
  | .outputLast sz _ _ _ _ _ _ => sz
  | .outputLastSkip sz _ _ _ => sz

/-- The per-variant `to_bytes` methods of the source. -/
def ITDescriptor.to_bytes : ITDescriptor → List Nat
  | .storeValue _ store_value store_address skip_address skip_z irq =>
    pack_desc16 (store_value &&& 0xFFFF)
      (make_control STORE_VALUE_CMD false KEY_STORE (if irq then IRQ_ALWAYS else IRQ_NONE)
        BRANCH_NEVER WAIT_NEVER)
      store_address (pack_ptr_with_z skip_address skip_z) 0 0
  | .outputMoreImmediate _ it_q0 it_q1 skip_address skip_z irq_on_skip =>
    le32 (control_word32 8
        (make_control OUTPUT_MORE false KEY_IMMEDIATE
          (if irq_on_skip then IRQ_ALWAYS else IRQ_NONE) BRANCH_NEVER WAIT_NEVER)) ++
      le32 (pack_ptr_with_z skip_address skip_z) ++
      le32 (it_q0 &&& 0xFFFFFFFF) ++ le32 (it_q1 &&& 0xFFFFFFFF) ++
      List.replicate 16 0
  | .outputLastImmediate _ it_q0 it_q1 branch_address branch_z write_status irq_on_complete =>
    le32 (control_word32 8
        (make_control OUTPUT_LAST write_status KEY_IMMEDIATE
          (if irq_on_complete then IRQ_ALWAYS else IRQ_NONE) BRANCH_ALWAYS WAIT_NEVER)) ++
      le32 (pack_ptr_with_z branch_address branch_z) ++
      le32 (it_q0 &&& 0xFFFFFFFF) ++ le32 (it_q1 &&& 0xFFFFFFFF) ++
      List.replicate 16 0
  | .outputMore _ req_count data_address =>
    pack_desc16 req_count
      (make_control OUTPUT_MORE false KEY_STANDARD IRQ_NONE BRANCH_NEVER WAIT_NEVER)
      data_address 0 0 0
  | .outputLast _ req_count data_address branch_address branch_z write_status irq_on_complete =>
    pack_desc16 req_count
      (make_control OUTPUT_LAST write_status KEY_STANDARD
        (if irq_on_complete then IRQ_ALWAYS else IRQ_NONE) BRANCH_ALWAYS WAIT_NEVER)
      data_address (pack_ptr_with_z branch_address branch_z) 0 0
  | .outputLastSkip _ branch_address branch_z irq_on_complete =>
    pack_desc16 0
      (make_control OUTPUT_LAST true KEY_STANDARD
        (if irq_on_complete then IRQ_ALWAYS else IRQ_NONE) BRANCH_ALWAYS WAIT_NEVER)
      0 (pack_ptr_with_z branch_address branch_z) 0 0

/-- `isinstance (d, StoreValue)`. -/
def ITDescriptor.isStoreValue : ITDescriptor → Bool
  | .storeValue .. => true
  | _ => false

/-- `isinstance (d, (OutputMore, OutputMoreImmediate))`. -/
def ITDescriptor.isMoreFamily : ITDescriptor → Bool
  | .outputMore .. => true
  | .outputMoreImmediate .. => true
  | _ => false

/-- `isinstance (d, (OutputLast, OutputLastSkip))`. -/
def ITDescriptor.isLastFamily : ITDescriptor → Bool
  | .outputLast .. => true
  | .outputLastSkip .. => true
  | _ => false

/-- `isinstance (d, (OutputMoreImmediate, OutputLastImmediate))`. -/
def ITDescriptor.isImmediateKey : ITDescriptor → Bool
  | .outputMoreImmediate .. => true
  | .outputLastImmediate .. => true
  | _ => false

/-- `SkipStrategy` from the source. -/
inductive SkipStrategy where
  | next
  | self
  | sentinel
deriving Repr, DecidableEq

/-- `DescriptorBlock` from the source. -/
structure DescriptorBlock where
  descriptors : List ITDescriptor
  address : Nat
deriving Repr, DecidableEq, Inhabited

/-- `DescriptorBlock.z_value`: `(total_bytes + 15) // 16`. -/
def DescriptorBlock.z_value (b : DescriptorBlock) : Nat :=
  ((b.descriptors.map ITDescriptor.size).sum + 15) / 16

/-- `DescriptorBlock.to_bytes`: concatenation of the descriptors' bytes. -/
def DescriptorBlock.to_bytes (b : DescriptorBlock) : List Nat :=
  (b.descriptors.map ITDescriptor.to_bytes).flatten

/-- Branch pointer fields of a block's final descriptor, when that final
descriptor is of the `OutputLast`/`OutputLastSkip` family. -/
def DescriptorBlock.terminal_branch (b : DescriptorBlock) : Option (Nat × Nat) :=
  match b.descriptors.getLast? with
  | some (.outputLast _ _ _ ba bz _ _) => some (ba, bz)
  | some (.outputLastSkip _ ba bz _) => some (ba, bz)
  | _ => none

/-! ### Program builder -/

/-- The errors the builder can raise: the `ValueError` for an unsupported
sample rate in `fdf_for_rate`, the `ValueError` for a misaligned fragment
size in `add_data_packet`, and the `ZeroDivisionError` of
`payload_len // fragments` when `fragments == 0`. -/
inductive BuildError where
  | unsupportedRate
  | unalignedFragment
  | divisionByZero
deriving Repr, DecidableEq

/-- The mutable state of a Python `ITProgramBuilder` object. -/
structure ITProgramBuilder where
  base_address : Nat
  channel : Nat
  speed : Nat
  sample_rate : Nat
  skip_strategy : SkipStrategy
  blocks : List DescriptorBlock
  dbc : Nat
  payload_base : Nat
  payload_offset : Nat
  sentinel_addr : Nat
deriving Repr, DecidableEq

/-- `ITProgramBuilder.__init__` from the source. -/
def mkBuilder (base_address channel speed sample_rate : Nat)
    (skip_strategy : SkipStrategy) : ITProgramBuilder :=
  { base_address := base_address
    channel := channel
    speed := speed
    sample_rate := sample_rate
    skip_strategy := skip_strategy
    blocks := []
    dbc := 0
    payload_base := base_address + 0x10000
    payload_offset := 0
    sentinel_addr := base_address + 0xFF00 }

/-- `_next_block_address`: base address for an empty program, otherwise the
last block's address plus `z_value * BLOCK_SIZE`. -/
def next_block_address (st : ITProgramBuilder) : Nat :=
  match st.blocks.getLast? with
  | none => st.base_address
  | some last => last.address + last.z_value * BLOCK_SIZE

/-- `_alloc_payload`: returns the cursor address and advances the cursor by
the size rounded up to a 16-byte multiple (the source's
`(size + 15) & ~15`, which for nonnegative sizes is
`(size + 15) / 16 * 16`). -/
def alloc_payload (st : ITProgramBuilder) (size : Nat) : Nat × ITProgramBuilder :=
  (st.payload_base + st.payload_offset,
   { st with payload_offset := st.payload_offset + (size + 15) / 16 * 16 })

/-- `add_data_packet` from the source, with the object mutations made
explicit: the returned state carries the updates that have happened by the
time the call returns or raises, and the `Except` value is the returned
block or the raised error. -/
def add_data_packet (st : ITProgramBuilder) (samples channels fragments : Nat)
    (store_val : Option Nat) (irq : Bool) :
    ITProgramBuilder × Except BuildError DescriptorBlock :=
  let audio_bytes := samples * channels * 4
  let payload_len := 8 + audio_bytes
  let it_q0 := build_it_header_q0 st.speed 1 st.channel
  let it_q1 := build_it_header_q1 payload_len
  match fdf_for_rate st.sample_rate with
  | none => (st, .error .unsupportedRate)
  | some fdf =>
    let _cip_q0 := build_cip_q0 0x3F channels st.dbc 0 0 0
    let _cip_q1 := build_cip_q1 0x10 fdf 0xFFFF
    let st := { st with dbc := (st.dbc + samples) &&& 0xFF }
    let descriptors : List ITDescriptor :=
      match store_val with
      | some v => [.storeValue 16 v (st.payload_base - 4) 0 0 false]
      | none => []
    let allocated := alloc_payload st payload_len
    let payload_addr := allocated.1
    let st := allocated.2
    let descriptors := descriptors ++ [.outputMoreImmediate 32 it_q0 it_q1 0 0 false]
    if fragments = 0 then (st, .error .divisionByZero)
    else
      let frag_size := payload_len / fragments
      let rem_size := payload_len % fragments
      if frag_size % 4 ≠ 0 then (st, .error .unalignedFragment)
      else
        let mores := (List.range (fragments - 1)).map (fun i =>
          ITDescriptor.outputMore 16 frag_size (payload_addr + i * frag_size))
        let last_size := frag_size + rem_size
        let last_addr := payload_addr + (fragments - 1) * frag_size
        let descriptors := descriptors ++ mores ++
          [.outputLast 16 last_size last_addr 0 0 true irq]
        let block : DescriptorBlock := ⟨descriptors, next_block_address st⟩
        ({ st with blocks := st.blocks ++ [block] }, .ok block)

/-- `add_nodata_packet` from the source (the effective, second definition,
which is identical to the first). -/
def add_nodata_packet (st : ITProgramBuilder) (channels : Nat) (irq : Bool) :
    ITProgramBuilder × Except BuildError DescriptorBlock :=
  let payload_len := 8
  let allocated := alloc_payload st payload_len
  let payload_addr := allocated.1
  let st := allocated.2
  let it_q0 := build_it_header_q0 st.speed 1 st.channel
  let it_q1 := build_it_header_q1 payload_len
  match fdf_for_rate st.sample_rate with
  | none => (st, .error .unsupportedRate)
  | some fdf =>
    let _cip_q0 := build_cip_q0 0x3F channels st.dbc 0 0 0
    let _cip_q1 := build_cip_q1 0x10 fdf 0xFFFF
    let descriptors : List ITDescriptor :=
      [.outputMoreImmediate 32 it_q0 it_q1 0 0 false,
       .outputLast 16 payload_len payload_addr 0 0 true irq]
    let block : DescriptorBlock := ⟨descriptors, next_block_address st⟩
    ({ st with blocks := st.blocks ++ [block] }, .ok block)

/-! ### Ring linker -/

/-- The per-descriptor pointer updates of `finalize_ring`'s inner loop:
`StoreValue` and `OutputMoreImmediate` get the strategy's skip target,
`OutputLast` and `OutputLastSkip` get the next block as branch target;
other variants are untouched. -/
def update_desc_links (skip_addr skip_z next_addr next_z : Nat) :
    ITDescriptor → ITDescriptor
  | .storeValue sz v sa _ _ irq => .storeValue sz v sa skip_addr skip_z irq
  | .outputMoreImmediate sz q0 q1 _ _ irq => .outputMoreImmediate sz q0 q1 skip_addr skip_z irq
  | .outputLast sz rc da _ _ ws irq => .outputLast sz rc da next_addr next_z ws irq
  | .outputLastSkip sz _ _ irq => .outputLastSkip sz next_addr next_z irq
  | d => d

/-- `finalize_ring` from the source (the effective, second definition,
identical to the first): link every block to its circular successor and
serialize.  Returns the mutated builder state together with the bytes. -/
def finalize_ring (st : ITProgramBuilder) : ITProgramBuilder × List Nat :=
  if st.blocks.isEmpty then (st, [])
  else
    let count := st.blocks.length
    let blocks' := (List.range count).map (fun i =>
      let block := st.blocks.getD i default
      let next_block := st.blocks.getD ((i + 1) % count) default
      let sk : Nat × Nat :=
        match st.skip_strategy with
        | .next => (next_block.address, next_block.z_value)
        | .self => (block.address, block.z_value)
        | .sentinel => (st.sentinel_addr, 1)
      let updated := block.descriptors.map
        (update_desc_links sk.1 sk.2 next_block.address next_block.z_value)
      { block with descriptors := updated })
    ({ st with blocks := blocks' }, (blocks'.map DescriptorBlock.to_bytes).flatten)

/-! ### Validator -/

/-- The validator's finding kinds, one per error message of the source. -/
inductive FindingKind where
  | storeNotFirst
  | tooManyOutputMore
  | missingOutputLast
  | misalignedAddress
  | immediateSizeMismatch
deriving Repr, DecidableEq

/-- Checks 1-4 of `validate`, for block `i`. -/
def block_findings (i : Nat) (block : DescriptorBlock) : List (Nat × FindingKind) :=
  (if block.descriptors.any ITDescriptor.isStoreValue &&
      !(match block.descriptors.head? with
        | some d => d.isStoreValue
        | none => false) then [(i, FindingKind.storeNotFirst)] else []) ++
  (if 8 < (block.descriptors.filter ITDescriptor.isMoreFamily).length
    then [(i, FindingKind.tooManyOutputMore)] else []) ++
  (if !(block.descriptors.any ITDescriptor.isLastFamily)
    then [(i, FindingKind.missingOutputLast)] else []) ++
  (if block.address % 16 ≠ 0 then [(i, FindingKind.misalignedAddress)] else [])

/-- `validate` as actually bound on the class: the SECOND definition
(lines 688-711 of the source), which shadows the first and performs only
checks 1-4. -/
def validate (st : ITProgramBuilder) : List (Nat × FindingKind) :=
  ((List.range st.blocks.length).map
    (fun i => block_findings i (st.blocks.getD i default))).flatten

/-- The first, shadowed definition of `validate` (lines 596-628 of the
source): checks 1-4 plus check 5, which reports every `Immediate`-keyed
descriptor whose `size` attribute is not 32. -/
def validate_shadowed (st : ITProgramBuilder) : List (Nat × FindingKind) :=
  ((List.range st.blocks.length).map (fun i =>
    let block := st.blocks.getD i default
    block_findings i block ++
      block.descriptors.filterMap (fun d =>
        if d.isImmediateKey && d.size ≠ 32
        then some (i, FindingKind.immediateSizeMismatch) else none))).flatten

/-! ### Log analyzer (event selection) -/

/-- One scanned trace event of `analyze_it_log`: the optional `eventCode`,
the optional `commandPtr` and the `dead` flag extracted from a line. -/
structure LogEvent where
  code : Option Nat
  cmdPtr : Option Nat
  dead : Bool
deriving Repr, DecidableEq

/-- The benign event codes `[0x00, 0x02, 0x11]` of the source. -/
def benign_codes : List Nat := [0x00, 0x02, 0x11]

/-- The source's per-event test `dead or is_error_code`, where
`is_error_code = code is not None and code not in [0x00, 0x02, 0x11]`. -/
def is_critical (e : LogEvent) : Bool :=
  e.dead ||
    (match e.code with
     | some c => !(benign_codes.contains c)
     | none => false)

/-- The source's critical-event scan: first event satisfying
`is_critical`, if any (the for-loop with `break`). -/
def find_critical (events : List LogEvent) : Option LogEvent :=
  events.find? is_critical

/-- `target_ev = critical_ev if critical_ev else events[-1]`. -/
def target_event (events : List LogEvent) : Option LogEvent :=
  match find_critical events with
  | some ev => some ev
  | none => events.getLast?

/-! ### Packet intents and whole-program construction -/

/-- One caller-visible builder call. -/
inductive PacketIntent where
  | data (samples channels fragments : Nat) (store_val : Option Nat) (irq : Bool)
  | nodata (channels : Nat) (irq : Bool)
deriving Repr, DecidableEq

/-- Dispatch one intent to the corresponding builder method. -/
def apply_intent (st : ITProgramBuilder) : PacketIntent →
    ITProgramBuilder × Except BuildError DescriptorBlock
  | .data s c f sv irq => add_data_packet st s c f sv irq
  | .nodata c irq => add_nodata_packet st c irq

/-- Run a sequence of builder calls; `none` when any call raises. -/
def build_program (st : ITProgramBuilder) : List PacketIntent → Option ITProgramBuilder
  | [] => some st
  | intent :: rest =>
    match apply_intent st intent with
    | (st', Except.ok _) => build_program st' rest
    | (_, Except.error _) => none

/-- Whether a builder call returned normally. -/
def result_ok : Except BuildError DescriptorBlock → Bool
  | .ok _ => true
  | .error _ => false

/-! ### More arithmetic normal forms -/

theorem and_268435455 (x : Nat) : x &&& 268435455 = x % 268435456 := by
  have h := Nat.and_pow_two_sub_one_eq_mod x 28
  norm_num at h
  exact h

theorem and_shiftLeft_mask (a m k : Nat) : a &&& (m <<< k) = ((a >>> k) &&& m) <<< k := by
  apply Nat.eq_of_testBit_eq
  intro j
  simp only [Nat.testBit_and, Nat.testBit_shiftLeft, Nat.testBit_shiftRight]
  by_cases h : k ≤ j
  · simp only [h, decide_True, Bool.true_and]
    rw [Nat.add_sub_cancel' h]
  · simp [h]

/-- `pack_ptr_with_z` in arithmetic normal form. -/
theorem pack_ptr_eq (a z : Nat) :
    pack_ptr_with_z a z = a / 16 % 268435456 * 16 + z % 16 := by
  unfold pack_ptr_with_z
  rw [show (0xFFFFFFF0 : Nat) = 268435455 <<< 4 by norm_num [Nat.shiftLeft_eq]]
  rw [and_shiftLeft_mask, and_fifteen, and_268435455, Nat.shiftRight_eq_div_pow,
    Nat.shiftLeft_eq]
  norm_num
  exact lor_add16 _ _ (Nat.mod_lt z (by norm_num))

/-- Claim C2: building four DATA blocks with 8 samples per packet,
2 channels, 1 fragment, skip strategy Next and base `0x80000000` gives
blocks of `zValue = 3` at addresses `0x80000000, 0x80000030, 0x80000060,
0x80000090`, and after finalization each block's terminal branch pointer
references the next block in the ring; block 3's branch packs to
`0x80000003` (block 0's address with Z = 3). -/
theorem c2_four_data_blocks :
    ((build_program (mkBuilder 0x80000000 0 2 48000 SkipStrategy.next)
        (List.replicate 4 (PacketIntent.data 8 2 1 none false))).map (fun st =>
      (finalize_ring st).1.blocks.map (fun b => (b.address, b.z_value, b.terminal_branch))))
      = some [(0x80000000, 3, some (0x80000030, 3)),
              (0x80000030, 3, some (0x80000060, 3)),
              (0x80000060, 3, some (0x80000090, 3)),
              (0x80000090, 3, some (0x80000000, 3))] ∧
    pack_ptr_with_z 0x80000000 3 = 0x80000003 :=
  ⟨by decide, by decide⟩

/-- Claim C3 counterexample: the encoded bytes of an immediate descriptor
do NOT carry the two quadlets in big-endian order after a 16-byte header;
at offset 16 the concrete descriptor below holds zero padding, not the
big-endian quadlets, refuting the claimed layout at this input. -/
theorem c3_counterexample :
    ¬ ((((ITDescriptor.outputMoreImmediate 32 0x01020304 0x05060708 0 0 false).to_bytes.drop
          16).take 8) = be32 0x01020304 ++ be32 0x05060708) := by
  decide

/-- Claim C3 amended: an Immediate-keyed descriptor's 32 encoded bytes
place an 8-byte header (first descriptor word, then the skip/branch
pointer word) first, the two 32-bit quadlets follow at byte offsets 8-15
in LITTLE-endian order, and 16 zero padding bytes fill offsets 16-31. -/
theorem c3_amended (q0 q1 sa sz ba bz : Nat) (irq ws : Bool) :
    ((ITDescriptor.outputMoreImmediate 32 q0 q1 sa sz irq).to_bytes.length = 32 ∧
     (((ITDescriptor.outputMoreImmediate 32 q0 q1 sa sz irq).to_bytes.drop 8).take 4)
       = le32 (q0 &&& 0xFFFFFFFF) ∧
     (((ITDescriptor.outputMoreImmediate 32 q0 q1 sa sz irq).to_bytes.drop 12).take 4)
       = le32 (q1 &&& 0xFFFFFFFF) ∧
     (ITDescriptor.outputMoreImmediate 32 q0 q1 sa sz irq).to_bytes.drop 16
       = List.replicate 16 0) ∧
    ((ITDescriptor.outputLastImmediate 32 q0 q1 ba bz ws irq).to_bytes.length = 32 ∧
     (((ITDescriptor.outputLastImmediate 32 q0 q1 ba bz ws irq).to_bytes.drop 8).take 4)
       = le32 (q0 &&& 0xFFFFFFFF) ∧
     (((ITDescriptor.outputLastImmediate 32 q0 q1 ba bz ws irq).to_bytes.drop 12).take 4)
       = le32 (q1 &&& 0xFFFFFFFF) ∧
     (ITDescriptor.outputLastImmediate 32 q0 q1 ba bz ws irq).to_bytes.drop 16
       = List.replicate 16 0) :=
  ⟨⟨rfl, rfl, rfl, rfl⟩, ⟨rfl, rfl, rfl, rfl⟩⟩

/-- Claim C4 counterexample: descriptor encoding does NOT fail on an
out-of-range `reqCount` or a misaligned address.  `pack_desc16` with
`reqCount = 0x10000` silently emits 16 bytes whose reqCount field is 0
(truncated), and `pack_ptr_with_z` with the misaligned address
`0x80000001` silently drops the low bit and returns a packed pointer. -/
theorem c4_counterexample :
    pack_desc16 0x10000 0 0 0 0 0 = [0, 0, 0, 0, 0, 0, 0, 0, 0, 0, 0, 0, 0, 0, 0, 0] ∧
    pack_ptr_with_z 0x80000001 3 = 0x80000003 :=
  ⟨by decide, by decide⟩

/-- Claim C4 amended: encoding never fails; `pack_desc16` always emits
exactly 16 bytes and masks `reqCount` to its low 16 bits (so a value above
`0xFFFF` is silently truncated), and `pack_ptr_with_z` silently clears the
low 4 bits of a misaligned address, placing `z` there instead. -/
theorem c4_amended (req ctl da br rc ts a z : Nat) :
    (pack_desc16 req ctl da br rc ts).length = 16 ∧
    pack_desc16 req ctl da br rc ts = pack_desc16 (req % 65536) ctl da br rc ts ∧
    pack_ptr_with_z a z % 16 = z % 16 ∧
    pack_ptr_with_z a z / 16 % 268435456 = a / 16 % 268435456 := by
  refine ⟨rfl, ?_, ?_, ?_⟩
  · simp [pack_desc16, and_65535, Nat.mod_mod]
  · rw [pack_ptr_eq]
    omega
  · rw [pack_ptr_eq]
    omega

/-- Claim C8: the claim is right and the code is wrong.  The class binds
the SECOND `validate` definition, which lacks check 5: on a block whose
Immediate-keyed descriptor reports `size = 16`, the effective `validate`
returns no finding at all, while the shadowed first definition (matching
the documented check list) reports the size mismatch for block 0. -/
theorem c8_immediate_size_check_lost :
    validate { mkBuilder 0x80000000 0 2 48000 SkipStrategy.next with
        blocks := [⟨[ITDescriptor.outputMoreImmediate 16 0 0 0 0 false,
                     ITDescriptor.outputLast 16 8 0 0 0 true false], 0⟩] } = [] ∧
    validate_shadowed { mkBuilder 0x80000000 0 2 48000 SkipStrategy.next with
        blocks := [⟨[ITDescriptor.outputMoreImmediate 16 0 0 0 0 false,
                     ITDescriptor.outputLast 16 8 0 0 0 true false], 0⟩] }
      = [(0, FindingKind.immediateSizeMismatch)] :=
  ⟨by decide, by decide⟩

/-- Claim C10: when `add_data_packet` fails with the unaligned-fragment
error, the block list is unchanged, but the DBC counter and the
payload-allocation cursor have already been advanced, because both updates
precede the fragment-alignment check. -/
theorem c10_failed_call_state (st : ITProgramBuilder)
    (samples channels fragments : Nat) (store_val : Option Nat) (irq : Bool)
    (h : (add_data_packet st samples channels fragments store_val irq).2
        = Except.error BuildError.unalignedFragment) :
    (add_data_packet st samples channels fragments store_val irq).1.blocks = st.blocks ∧
    (add_data_packet st samples channels fragments store_val irq).1.dbc
      = (st.dbc + samples) % 256 ∧
    (add_data_packet st samples channels fragments store_val irq).1.payload_offset
      = st.payload_offset + (8 + samples * channels * 4 + 15) / 16 * 16 := by
  rcases hres : add_data_packet st samples channels fragments store_val irq with ⟨st', r⟩
  rw [hres] at h
  simp only [] at h ⊢
  subst h
  rcases hf : fdf_for_rate st.sample_rate with _ | fdf
  · simp [add_data_packet, hf] at hres
  · simp only [add_data_packet, alloc_payload, hf] at hres
    by_cases h0 : fragments = 0
    · simp [h0] at hres
    · by_cases h4 : (8 + samples * channels * 4) / fragments % 4 = 0
      · simp [h0, h4] at hres
      · simp only [h0, h4, ne_eq, not_false_eq_true, if_true, if_false, ite_true, ite_false,
          reduceIte, Prod.mk.injEq] at hres
        obtain ⟨h1, -⟩ := hres
        rw [← h1]
        exact ⟨rfl, (and_255 _), rfl⟩

/-- Witness for C10: a concrete failed call (samples = 1, channels = 1,
fragments = 5 gives fragment size 12 // 5 = 2, not a multiple of 4). -/
theorem c10_failed_call_state_witness :
    ((add_data_packet (mkBuilder 0x80000000 0 2 48000 SkipStrategy.next) 1 1 5 none false).2
        = Except.error BuildError.unalignedFragment) ∧
    ((add_data_packet (mkBuilder 0x80000000 0 2 48000 SkipStrategy.next) 1 1 5 none
          false).1.blocks = (mkBuilder 0x80000000 0 2 48000 SkipStrategy.next).blocks ∧
     (add_data_packet (mkBuilder 0x80000000 0 2 48000 SkipStrategy.next) 1 1 5 none
          false).1.dbc = ((mkBuilder 0x80000000 0 2 48000 SkipStrategy.next).dbc + 1) % 256 ∧
     (add_data_packet (mkBuilder 0x80000000 0 2 48000 SkipStrategy.next) 1 1 5 none
          false).1.payload_offset
       = (mkBuilder 0x80000000 0 2 48000 SkipStrategy.next).payload_offset
          + (8 + 1 * 1 * 4 + 15) / 16 * 16) :=
  ⟨by rfl,
   c10_failed_call_state (mkBuilder 0x80000000 0 2 48000 SkipStrategy.next) 1 1 5 none false
     (by rfl)⟩

/-- Claim C7: a successful `add_data_packet` call with sample count `s`
advances the DBC counter to `(dbc + s) % 256`, and `add_nodata_packet`
never changes the DBC counter (whether it returns or raises). -/
theorem c7_dbc_counter :
    (∀ (st : ITProgramBuilder) (samples channels fragments : Nat)
        (store_val : Option Nat) (irq : Bool),
      result_ok (add_data_packet st samples channels fragments store_val irq).2 = true →
        (add_data_packet st samples channels fragments store_val irq).1.dbc
          = (st.dbc + samples) % 256) ∧
    (∀ (st : ITProgramBuilder) (channels : Nat) (irq : Bool),
      (add_nodata_packet st channels irq).1.dbc = st.dbc) := by
  constructor
  · intro st samples channels fragments store_val irq h
    rcases hres : add_data_packet st samples channels fragments store_val irq with ⟨st', r⟩
    rw [hres] at h
    simp only [] at h ⊢
    rcases hf : fdf_for_rate st.sample_rate with _ | fdf
    · simp only [add_data_packet, hf, Prod.mk.injEq] at hres
      rw [← hres.2] at h
      simp [result_ok] at h
    · simp only [add_data_packet, alloc_payload, hf] at hres
      by_cases h0 : fragments = 0
      · simp only [h0, if_true, ite_true, Prod.mk.injEq] at hres
        rw [← hres.2] at h
        simp [result_ok] at h
      · by_cases h4 : (8 + samples * channels * 4) / fragments % 4 = 0
        · rw [if_neg h0, if_neg (not_not_intro h4), Prod.mk.injEq] at hres
          rw [← hres.1]
          exact and_255 _
        · rw [if_neg h0, if_pos h4, Prod.mk.injEq] at hres
          rw [← hres.2] at h
          simp [result_ok] at h
  · intro st channels irq
    rcases hf : fdf_for_rate st.sample_rate with _ | fdf <;>
      simp [add_nodata_packet, alloc_payload, hf]

/-- Witness for C7 at a concrete successful call. -/
theorem c7_dbc_counter_witness :
    (result_ok (add_data_packet (mkBuilder 0x80000000 0 2 48000 SkipStrategy.next)
        8 2 1 none false).2 = true) ∧
    (add_data_packet (mkBuilder 0x80000000 0 2 48000 SkipStrategy.next) 8 2 1 none
        false).1.dbc
      = ((mkBuilder 0x80000000 0 2 48000 SkipStrategy.next).dbc + 8) % 256 :=
  ⟨by decide,
   c7_dbc_counter.1 (mkBuilder 0x80000000 0 2 48000 SkipStrategy.next) 8 2 1 none false
     (by decide)⟩

/-! ### Fragment sizes (C5) -/

/-- The request count a descriptor contributes as a payload fragment:
`OutputMore` and `OutputLast` carry fragment request counts. -/
def frag_entry : ITDescriptor → Option Nat
  | .outputMore _ rc _ => some rc
  | .outputLast _ rc _ _ _ _ _ => some rc
  | _ => none

/-- The fragment sizes of a block: the request counts of its
`OutputMore`/`OutputLast` descriptors, in order. -/
def DescriptorBlock.fragment_sizes (b : DescriptorBlock) : List Nat :=
  b.descriptors.filterMap frag_entry

theorem filterMap_frag_mores (n s a : Nat) :
    List.filterMap (frag_entry ∘ fun i => ITDescriptor.outputMore 16 s (a + i * s))
        (List.range n)
      = List.replicate n s := by
  induction n with
  | zero => simp
  | succ k ih =>
    rw [List.range_succ, List.filterMap_append, ih]
    simp [frag_entry, Function.comp, List.replicate_succ']

/-- Claim C5: fragmentation conservation.  A successful `add_data_packet`
call splits the payload (8 CIP bytes plus `samples*channels*4` audio
bytes) into exactly `fragments` pieces whose sizes sum to the payload
length, every piece is a multiple of 4, the first `fragments - 1` pieces
each equal `payloadLen / fragments`, and the last piece absorbs the
remainder; and whenever the computed fragment size is not a multiple of 4
(and the sample rate is representable), the call fails with the
unaligned-fragment error instead of truncating. -/
theorem c5_fragmentation_conservation (st : ITProgramBuilder)
    (samples channels fragments : Nat) (store_val : Option Nat) (irq : Bool) :
    (∀ b : DescriptorBlock,
      (add_data_packet st samples channels fragments store_val irq).2 = Except.ok b →
        b.fragment_sizes.length = fragments ∧
        b.fragment_sizes.sum = 8 + samples * channels * 4 ∧
        (∀ x ∈ b.fragment_sizes, x % 4 = 0) ∧
        b.fragment_sizes.take (fragments - 1)
          = List.replicate (fragments - 1) ((8 + samples * channels * 4) / fragments) ∧
        b.fragment_sizes.getLast?
          = some ((8 + samples * channels * 4) / fragments
              + (8 + samples * channels * 4) % fragments)) ∧
    (fdf_for_rate st.sample_rate ≠ none →
      (8 + samples * channels * 4) / fragments % 4 ≠ 0 →
      (add_data_packet st samples channels fragments store_val irq).2
        = Except.error BuildError.unalignedFragment) := by
  constructor
  · intro b hb
    rcases hres : add_data_packet st samples channels fragments store_val irq with ⟨st', r⟩
    rw [hres] at hb
    replace hb : r = Except.ok b := hb
    subst hb
    rcases hf : fdf_for_rate st.sample_rate with _ | fdf
    · simp only [add_data_packet, hf, Prod.mk.injEq] at hres
      exact Except.noConfusion hres.2
    · simp only [add_data_packet, alloc_payload, hf] at hres
      by_cases h0 : fragments = 0
      · rw [if_pos h0, Prod.mk.injEq] at hres
        exact Except.noConfusion hres.2
      · by_cases h4 : (8 + samples * channels * 4) / fragments % 4 = 0
        · rw [if_neg h0, if_neg (not_not_intro h4), Prod.mk.injEq] at hres
          obtain ⟨-, h2⟩ := hres
          injection h2 with h2
          subst h2
          have hsizes :
              (DescriptorBlock.fragment_sizes
                ⟨((match store_val with
                    | some v =>
                      [ITDescriptor.storeValue 16 v (st.payload_base - 4) 0 0 false]
                    | none => []) ++
                    [ITDescriptor.outputMoreImmediate 32
                      (build_it_header_q0 st.speed 1 st.channel)
                      (build_it_header_q1 (8 + samples * channels * 4)) 0 0 false]) ++
                    (List.range (fragments - 1)).map (fun i =>
                      ITDescriptor.outputMore 16 ((8 + samples * channels * 4) / fragments)
                        (st.payload_base + st.payload_offset +
                          i * ((8 + samples * channels * 4) / fragments))) ++
                    [ITDescriptor.outputLast 16
                      ((8 + samples * channels * 4) / fragments
                        + (8 + samples * channels * 4) % fragments)
                      (st.payload_base + st.payload_offset +
                        (fragments - 1) * ((8 + samples * channels * 4) / fragments))
                      0 0 true irq],
                  next_block_address
                    { st with
                      dbc := (st.dbc + samples) &&& 255,
                      payload_offset := st.payload_offset
                        + (8 + samples * channels * 4 + 15) / 16 * 16 }⟩)
                = List.replicate (fragments - 1) ((8 + samples * channels * 4) / fragments)
                  ++ [(8 + samples * channels * 4) / fragments
                      + (8 + samples * channels * 4) % fragments] := by
            rcases store_val with _ | v <;>
              simp [DescriptorBlock.fragment_sizes, List.filterMap_append,
                filterMap_frag_mores, frag_entry]
          refine ⟨?_, ?_, ?_, ?_, ?_⟩
          · rw [hsizes]
            simp
            omega
          · rw [hsizes]
            simp [List.sum_replicate, smul_eq_mul]
            obtain ⟨g, rfl⟩ : ∃ g, fragments = g + 1 := ⟨fragments - 1, by omega⟩
            have hdm := Nat.div_add_mod (8 + samples * channels * 4) (g + 1)
            have h5 : (g + 1) * ((8 + samples * channels * 4) / (g + 1))
                = g * ((8 + samples * channels * 4) / (g + 1))
                  + (8 + samples * channels * 4) / (g + 1) := by ring
            simp only [Nat.add_sub_cancel]
            linarith [hdm, h5]
          · rw [hsizes]
            intro x hx
            rcases List.mem_append.mp hx with hx | hx
            · rw [List.eq_of_mem_replicate hx]
              exact h4
            · rw [List.mem_singleton.mp hx]
              obtain ⟨q, hq⟩ := Nat.dvd_of_mod_eq_zero h4
              have hdm := Nat.div_add_mod (8 + samples * channels * 4) fragments
              rw [hq] at hdm ⊢
              have h6 : fragments * (4 * q) = 4 * (fragments * q) := by ring
              omega
          · rw [hsizes]
            exact List.take_left' (List.length_replicate _ _)
          · rw [hsizes]
            exact List.getLast?_concat _
        · rw [if_neg h0, if_pos h4, Prod.mk.injEq] at hres
          exact Except.noConfusion hres.2
  · intro hf4 h4
    rcases hf : fdf_for_rate st.sample_rate with _ | fdf
    · exact absurd hf hf4
    · have h0 : fragments ≠ 0 := by
        intro h0
        rw [h0, Nat.div_zero] at h4
        exact h4 rfl
      simp only [add_data_packet, alloc_payload, hf]
      rw [if_neg h0, if_pos h4]

/-- Concrete block produced by `add_data_packet` with 8 samples,
2 channels, 2 fragments on a fresh builder. -/
def c5_example_block : DescriptorBlock :=
  ⟨[ITDescriptor.outputMoreImmediate 32 0x240A0 0x480000 0 0 false,
    ITDescriptor.outputMore 16 36 0x80010000,
    ITDescriptor.outputLast 16 36 0x80010024 0 0 true false], 0x80000000⟩

/-- Witness for C5 at a concrete successful two-fragment call. -/
theorem c5_fragmentation_conservation_witness :
    ((add_data_packet (mkBuilder 0x80000000 0 2 48000 SkipStrategy.next) 8 2 2 none false).2
        = Except.ok c5_example_block) ∧
    (c5_example_block.fragment_sizes.length = 2 ∧
     c5_example_block.fragment_sizes.sum = 8 + 8 * 2 * 4 ∧
     (∀ x ∈ c5_example_block.fragment_sizes, x % 4 = 0) ∧
     c5_example_block.fragment_sizes.take (2 - 1)
       = List.replicate (2 - 1) ((8 + 8 * 2 * 4) / 2) ∧
     c5_example_block.fragment_sizes.getLast?
       = some ((8 + 8 * 2 * 4) / 2 + (8 + 8 * 2 * 4) % 2)) :=
  ⟨by rfl,
   (c5_fragmentation_conservation (mkBuilder 0x80000000 0 2 48000 SkipStrategy.next)
      8 2 2 none false).1 c5_example_block (by rfl)⟩

theorem find_critical_first : ∀ (events : List LogEvent) (ev : LogEvent),
    find_critical events = some ev →
    ∃ i : Fin events.length, events.get i = ev ∧ is_critical ev = true ∧
      ∀ j : Fin events.length, (j : Nat) < (i : Nat) →
        is_critical (events.get j) = false := by
  intro events
  induction events with
  | nil => intro ev h; simp [find_critical] at h
  | cons e rest ih =>
    intro ev h
    by_cases hc : is_critical e = true
    · rw [find_critical, List.find?_cons_of_pos _ hc] at h
      injection h with h
      subst h
      exact ⟨⟨0, by simp⟩, rfl, hc, fun j hj => absurd hj (Nat.not_lt_zero _)⟩
    · rw [find_critical, List.find?_cons_of_neg _ hc] at h
      obtain ⟨i, hi, hcrit, hfirst⟩ := ih ev h
      refine ⟨⟨i.val + 1, by simp⟩, by simpa using hi, hcrit, ?_⟩
      rintro ⟨jv, hjlt⟩ hj
      cases jv with
      | zero => simpa using Bool.eq_false_iff.mpr hc
      | succ k =>
        have hk : k < rest.length := by simpa using hjlt
        simpa using hfirst ⟨k, hk⟩ (by simpa using hj)

/-- Claim C9: critical event selection.  For every nonempty scanned event
sequence, the diagnoser's selected event is the first event whose dead
flag is set or whose event code lies outside the benign set
`{0x00, 0x02, 0x11}` (no event before it qualifies); when no event
qualifies, it falls back to the last event of the sequence. -/
theorem c9_critical_event_selection (events : List LogEvent) (h : events ≠ []) :
    (∃ i : Fin events.length,
      target_event events = some (events.get i) ∧
      is_critical (events.get i) = true ∧
      ∀ j : Fin events.length, (j : Nat) < (i : Nat) →
        is_critical (events.get j) = false) ∨
    ((∀ e ∈ events, is_critical e = false) ∧
      target_event events = some (events.getLast h)) := by
  rcases hfc : find_critical events with _ | ev
  · right
    constructor
    · intro e he
      have h2 := List.find?_eq_none.mp hfc e he
      simpa using h2
    · simp only [target_event, hfc]
      exact List.getLast?_eq_getLast events h
  · left
    obtain ⟨i, hi, hcrit, hfirst⟩ := find_critical_first events ev hfc
    refine ⟨i, ?_, ?_, hfirst⟩
    · simp only [target_event, hfc, hi]
    · rw [hi]
      exact hcrit

/-- Concrete trace for the C9 witness: a benign ack-complete event, then a
dead timeout event (code 0x0A), then another benign event. -/
def c9_example_events : List LogEvent :=
  [⟨some 0x02, none, false⟩, ⟨some 0x0A, none, true⟩, ⟨some 0x02, none, false⟩]

/-- Witness for C9: on the concrete trace the selected event is the first
critical one. -/
theorem c9_critical_event_selection_witness :
    c9_example_events ≠ [] ∧
    ((∃ i : Fin c9_example_events.length,
       target_event c9_example_events = some (c9_example_events.get i) ∧
       is_critical (c9_example_events.get i) = true ∧
       ∀ j : Fin c9_example_events.length, (j : Nat) < (i : Nat) →
         is_critical (c9_example_events.get j) = false) ∨
     ((∀ e ∈ c9_example_events, is_critical e = false) ∧
       target_event c9_example_events
         = some (c9_example_events.getLast (by decide)))) :=
  ⟨by decide, c9_critical_event_selection c9_example_events (by decide)⟩

/-! ### Ring closure (C6) -/

/-- A block whose final descriptor is of the terminal
(`OutputLast`/`OutputLastSkip`) family. -/
def ends_with_last (b : DescriptorBlock) : Bool :=
  match b.descriptors.getLast? with
  | some d => d.isLastFamily
  | none => false

theorem update_desc_links_size (a b c e : Nat) (d : ITDescriptor) :
    (update_desc_links a b c e d).size = d.size := by
  cases d <;> rfl

theorem terminal_branch_update (l : List ITDescriptor) (addr a b c e : Nat)
    (d : ITDescriptor) (hl : l.getLast? = some d) (hd : d.isLastFamily = true) :
    (DescriptorBlock.mk (l.map (update_desc_links a b c e)) addr).terminal_branch
      = some (c, e) := by
  unfold DescriptorBlock.terminal_branch
  simp only [List.getLast?_map, hl, Option.map_some']
  cases d <;> simp [ITDescriptor.isLastFamily] at hd <;> rfl

theorem z_value_map_update (l : List ITDescriptor) (addr a b c e : Nat) :
    (DescriptorBlock.mk (l.map (update_desc_links a b c e)) addr).z_value
      = (DescriptorBlock.mk l addr).z_value := by
  have hmap : List.map (ITDescriptor.size ∘ update_desc_links a b c e) l
      = List.map ITDescriptor.size l :=
    List.map_congr_left (fun d _ => update_desc_links_size a b c e d)
  unfold DescriptorBlock.z_value
  rw [List.map_map, hmap]

theorem add_data_packet_ok_blocks (st : ITProgramBuilder)
    (samples channels fragments : Nat) (store_val : Option Nat) (irq : Bool)
    (st' : ITProgramBuilder) (blk : DescriptorBlock)
    (h : add_data_packet st samples channels fragments store_val irq
      = (st', Except.ok blk)) :
    st'.blocks = st.blocks ++ [blk] ∧ ends_with_last blk = true := by
  rcases hf : fdf_for_rate st.sample_rate with _ | fdf
  · simp only [add_data_packet, hf, Prod.mk.injEq] at h
    exact Except.noConfusion h.2
  · simp only [add_data_packet, alloc_payload, hf] at h
    by_cases h0 : fragments = 0
    · rw [if_pos h0, Prod.mk.injEq] at h
      exact Except.noConfusion h.2
    · by_cases h4 : (8 + samples * channels * 4) / fragments % 4 = 0
      · rw [if_neg h0, if_neg (not_not_intro h4), Prod.mk.injEq] at h
        obtain ⟨h1, h2⟩ := h
        injection h2 with h2
        subst h2
        rw [← h1]
        refine ⟨rfl, ?_⟩
        rcases store_val with _ | v <;>
          simp [ends_with_last, List.getLast?_cons, ITDescriptor.isLastFamily]
      · rw [if_neg h0, if_pos h4, Prod.mk.injEq] at h
        exact Except.noConfusion h.2

theorem add_nodata_packet_ok_blocks (st : ITProgramBuilder) (channels : Nat)
    (irq : Bool) (st' : ITProgramBuilder) (blk : DescriptorBlock)
    (h : add_nodata_packet st channels irq = (st', Except.ok blk)) :
    st'.blocks = st.blocks ++ [blk] ∧ ends_with_last blk = true := by
  rcases hf : fdf_for_rate st.sample_rate with _ | fdf
  · simp only [add_nodata_packet, alloc_payload, hf, Prod.mk.injEq] at h
    exact Except.noConfusion h.2
  · simp only [add_nodata_packet, alloc_payload, hf, Prod.mk.injEq] at h
    obtain ⟨h1, h2⟩ := h
    injection h2 with h2
    subst h2
    rw [← h1]
    exact ⟨rfl, by simp [ends_with_last, ITDescriptor.isLastFamily]⟩

theorem build_blocks_end_with_last :
    ∀ (intents : List PacketIntent) (st st' : ITProgramBuilder),
      (∀ b ∈ st.blocks, ends_with_last b = true) →
      build_program st intents = some st' →
      ∀ b ∈ st'.blocks, ends_with_last b = true := by
  intro intents
  induction intents with
  | nil =>
    intro st st' hinv h
    simp only [build_program, Option.some.injEq] at h
    subst h
    exact hinv
  | cons intent rest ih =>
    intro st st' hinv h
    simp only [build_program] at h
    rcases happ : apply_intent st intent with ⟨st1, r⟩
    rw [happ] at h
    rcases r with e | blk
    · simp at h
    · have hstep : st1.blocks = st.blocks ++ [blk] ∧ ends_with_last blk = true := by
        rcases intent with ⟨s, c, f, sv, irq⟩ | ⟨c, irq⟩
        · exact add_data_packet_ok_blocks st s c f sv irq st1 blk happ
        · exact add_nodata_packet_ok_blocks st c irq st1 blk happ
      refine ih st1 st' ?_ h
      rw [hstep.1]
      intro b hb
      rcases List.mem_append.mp hb with hb | hb
      · exact hinv b hb
      · rw [List.mem_singleton.mp hb]
        exact hstep.2

theorem iterate_mod_lt (n : Nat) :
    ∀ k, k < n → (fun j => (j + 1) % n)^[k] 0 = k := by
  intro k
  induction k with
  | zero => intro _; rfl
  | succ m ih =>
    intro hk
    rw [Function.iterate_succ_apply', ih (by omega)]
    exact Nat.mod_eq_of_lt hk

theorem iterate_mod_full (n : Nat) (hn : 0 < n) :
    (fun j => (j + 1) % n)^[n] 0 = 0 := by
  obtain ⟨m, rfl⟩ : ∃ m, n = m + 1 := ⟨n - 1, by omega⟩
  rw [Function.iterate_succ_apply', iterate_mod_lt (m + 1) m (by omega)]
  exact Nat.mod_self (m + 1)

theorem finalize_blocks_length (st : ITProgramBuilder) (hne : st.blocks ≠ []) :
    (finalize_ring st).1.blocks.length = st.blocks.length := by
  have hie : st.blocks.isEmpty = false := List.isEmpty_eq_false.mpr hne
  simp [finalize_ring, hie]

theorem finalize_blocks_getD (st : ITProgramBuilder) (hne : st.blocks ≠ [])
    (i : Nat) (hi : i < st.blocks.length) :
    (finalize_ring st).1.blocks.getD i default =
      (DescriptorBlock.mk
        ((st.blocks.getD i default).descriptors.map
          (update_desc_links
            (match st.skip_strategy with
              | .next => (st.blocks.getD ((i + 1) % st.blocks.length) default).address
              | .self => (st.blocks.getD i default).address
              | .sentinel => st.sentinel_addr)
            (match st.skip_strategy with
              | .next => (st.blocks.getD ((i + 1) % st.blocks.length) default).z_value
              | .self => (st.blocks.getD i default).z_value
              | .sentinel => 1)
            (st.blocks.getD ((i + 1) % st.blocks.length) default).address
            (st.blocks.getD ((i + 1) % st.blocks.length) default).z_value))
        (st.blocks.getD i default).address) := by
  have hie : st.blocks.isEmpty = false := List.isEmpty_eq_false.mpr hne
  simp only [finalize_ring, hie, Bool.false_eq_true, if_false]
  rw [List.getD_eq_getElem?_getD,
    List.getElem?_eq_getElem (by simpa using hi)]
  simp only [List.getElem_map, List.getElem_range, Option.getD_some]
  rcases st.skip_strategy <;> rfl

/-- Claim C6: ring closure.  For every program built by a sequence of
successful builder calls, with at least one block, and under any skip
strategy, after `finalize_ring` every block's terminal branch pointer
references the next block in circular order (its address and Z value),
including the last-to-first wraparound; consequently following terminal
branch pointers from block 0 steps through indices 0, 1, ..., N-1
(visiting all N blocks, each once) and returns to block 0 after N steps. -/
theorem c6_ring_closure (base channel speed rate : Nat) (strat : SkipStrategy)
    (intents : List PacketIntent) (st : ITProgramBuilder)
    (hb : build_program (mkBuilder base channel speed rate strat) intents = some st)
    (hne : st.blocks ≠ []) :
    (∀ i, i < (finalize_ring st).1.blocks.length →
      ((finalize_ring st).1.blocks.getD i default).terminal_branch
        = some
          (((finalize_ring st).1.blocks.getD
              ((i + 1) % (finalize_ring st).1.blocks.length) default).address,
           ((finalize_ring st).1.blocks.getD
              ((i + 1) % (finalize_ring st).1.blocks.length) default).z_value)) ∧
    (∀ k, k < (finalize_ring st).1.blocks.length →
      (fun j => (j + 1) % (finalize_ring st).1.blocks.length)^[k] 0 = k) ∧
    (fun j =>
      (j + 1) % (finalize_ring st).1.blocks.length)^[(finalize_ring st).1.blocks.length]
        0 = 0 := by
  have hlen := finalize_blocks_length st hne
  have hinv := build_blocks_end_with_last intents (mkBuilder base channel speed rate strat)
    st (by simp [mkBuilder]) hb
  have hnlen : 0 < st.blocks.length := List.length_pos.mpr hne
  refine ⟨?_, ?_, ?_⟩
  · intro i hi
    rw [hlen] at hi ⊢
    have hi1 : (i + 1) % st.blocks.length < st.blocks.length := Nat.mod_lt _ hnlen
    have hmem : st.blocks.getD i default ∈ st.blocks := by
      rw [List.getD_eq_getElem?_getD, List.getElem?_eq_getElem hi]
      exact List.getElem_mem hi
    have hend := hinv _ hmem
    rcases hlast : (st.blocks.getD i default).descriptors.getLast? with _ | d
    · rw [ends_with_last, hlast] at hend
      exact absurd hend (by simp)
    · rw [ends_with_last, hlast] at hend
      rw [finalize_blocks_getD st hne i hi, finalize_blocks_getD st hne _ hi1]
      rw [terminal_branch_update _ _ _ _ _ _ d hlast hend]
      simp only [Option.some.injEq, Prod.mk.injEq, true_and]
      exact (z_value_map_update _ _ _ _ _ _).symm
  · intro k hk
    exact iterate_mod_lt _ k hk
  · rw [hlen]
    exact iterate_mod_full _ hnlen

/-- Concrete two-block program (one DATA, one NO-DATA packet) for the C6
witness, built under the Sentinel skip strategy. -/
def c6_example_state : ITProgramBuilder :=
  (build_program (mkBuilder 0x80000000 0 2 48000 SkipStrategy.sentinel)
    [PacketIntent.data 8 2 1 none false, PacketIntent.nodata 8 false]).getD
    (mkBuilder 0 0 0 0 SkipStrategy.next)

/-- Witness for C6 at the concrete two-block program. -/
theorem c6_ring_closure_witness :
    (build_program (mkBuilder 0x80000000 0 2 48000 SkipStrategy.sentinel)
        [PacketIntent.data 8 2 1 none false, PacketIntent.nodata 8 false]
      = some c6_example_state) ∧
    c6_example_state.blocks ≠ [] ∧
    ((∀ i, i < (finalize_ring c6_example_state).1.blocks.length →
        ((finalize_ring c6_example_state).1.blocks.getD i default).terminal_branch
          = some
            (((finalize_ring c6_example_state).1.blocks.getD
                ((i + 1) % (finalize_ring c6_example_state).1.blocks.length)
                default).address,
             ((finalize_ring c6_example_state).1.blocks.getD
                ((i + 1) % (finalize_ring c6_example_state).1.blocks.length)
                default).z_value)) ∧
     (∀ k, k < (finalize_ring c6_example_state).1.blocks.length →
        (fun j =>
          (j + 1) % (finalize_ring c6_example_state).1.blocks.length)^[k] 0 = k) ∧
     (fun j =>
        (j + 1) %
          (finalize_ring c6_example_state).1.blocks.length)^[(finalize_ring
            c6_example_state).1.blocks.length] 0 = 0) :=
  ⟨by rfl, by decide,
   c6_ring_closure 0x80000000 0 2 48000 SkipStrategy.sentinel
     [PacketIntent.data 8 2 1 none false, PacketIntent.nodata 8 false]
     c6_example_state (by rfl) (by decide)⟩

end ITDMA
